import Mathlib

/-!
# Verification of the aegis plagiarism-detection engine

A shallow embedding of the similarity kernels, cascade pipeline,
inverted-index candidate filter, candidate scoring, worker-pool sizing,
compute endpoint decision logic and aggregation reduction of the aegis
repository, together with proofs and refutations of its specified
properties.

Conventions of the embedding:
* Go `float64` arithmetic is modelled exactly over `ℚ` wherever the source
  only performs field operations and comparisons, and over `ℝ` where the
  source calls `math.Sqrt` (the CFG kernel and the cascade final score).
* Go `map`-based hash sets are modelled as `Finset String`;
  Go bool-array position marks are modelled as `Finset ℕ`.
* Go's byte-wise lexicographic string comparison `<` is modelled by an
  explicit recursive comparison on the character list of a `String`.
* `crypto/sha256` is an opaque deterministic function of its input; the
  AST kernel is therefore parametrised over an arbitrary hash function
  `h : String → String`, so every theorem proved for all `h` holds in
  particular for SHA-256.
* Fallible or stateful surroundings (HTTP handler) are modelled as pure
  decision functions over an explicit environment.
-/

namespace Aegis

/-! ## Lexicographic string comparison (Go `<` on strings) -/

/-- Byte-wise lexicographic "less than" on character lists, as Go compares
strings. -/
def strLtB : List Char → List Char → Bool
  | [], [] => false
  | [], _ :: _ => true
  | _ :: _, [] => false
  | a :: as, b :: bs => if a < b then true else if b < a then false else strLtB as bs

/-- Go's `id1 < id2` on strings. -/
def strLt (a b : String) : Bool := strLtB a.data b.data

/-- `a ≤ b` on strings, used to model `sort.Strings`. -/
def strLe (a b : String) : Bool := !(strLtB b.data a.data)

theorem strLtB_asymm : ∀ {as bs : List Char}, strLtB as bs = true → strLtB bs as = false
  | [], [], h => by simp [strLtB] at h
  | [], _ :: _, _ => by simp [strLtB]
  | _ :: _, [], h => by simp [strLtB] at h
  | a :: as, b :: bs, h => by
      by_cases hab : a < b
      · simp [strLtB, hab, asymm hab, lt_irrefl]
      · by_cases hba : b < a
        · simp [strLtB, hab, hba] at h
        · have h' : strLtB as bs = true := by simpa [strLtB, hab, hba] using h
          simp [strLtB, hab, hba, strLtB_asymm h']

theorem strLtB_eq_of_not (as bs : List Char) (h1 : strLtB as bs = false)
    (h2 : strLtB bs as = false) : as = bs := by
  induction as generalizing bs with
  | nil => cases bs with
    | nil => rfl
    | cons b bs => simp [strLtB] at h1
  | cons a as ih => cases bs with
    | nil => simp [strLtB] at h2
    | cons b bs =>
        by_cases hab : a < b
        · simp [strLtB, hab] at h1
        · by_cases hba : b < a
          · simp [strLtB, hba, asymm hba] at h2
          · have hEq : a = b := le_antisymm (not_lt.mp hba) (not_lt.mp hab)
            subst hEq
            have h1' : strLtB as bs = false := by simpa [strLtB, lt_irrefl] using h1
            have h2' : strLtB bs as = false := by simpa [strLtB, lt_irrefl] using h2
            simp [ih bs h1' h2']

/-! ## Data model (internal/models) -/

/-- One fingerprint hash entry (`models.HashEntry`). -/
structure HashEntry where
  hash : String
  position : ℤ
  deriving Repr, DecidableEq

/-- Winnowed fingerprint data (`models.Fingerprints`). -/
structure Fingerprints where
  method : String
  kGramSize : ℤ
  windowSize : ℤ
  hashes : List HashEntry
  deriving Repr, DecidableEq

/-- An AST node (`models.ASTNode`); only the fields read by the AST kernel
(`Type`, `Name`, `ReturnType`, `Children`) are modelled. -/
inductive ASTNode where
  | mk (type name returnType : String) (children : List ASTNode)

/-- The node kind tag. -/
def ASTNode.type : ASTNode → String
  | .mk t _ _ _ => t

/-- The optional name (empty string when absent, as Go's zero value). -/
def ASTNode.name : ASTNode → String
  | .mk _ n _ _ => n

/-- The optional return type (empty string when absent). -/
def ASTNode.returnType : ASTNode → String
  | .mk _ _ r _ => r

/-- The child subtrees. -/
def ASTNode.children : ASTNode → List ASTNode
  | .mk _ _ _ cs => cs

/-- A CFG node (`models.CFGNode`). -/
structure CFGNode where
  id : String
  type : String
  label : String
  lineNumber : ℤ
  deriving Repr, DecidableEq

/-- A CFG edge (`models.CFGEdge`). -/
structure CFGEdge where
  from_ : String
  to_ : String
  type : String
  deriving Repr, DecidableEq

/-- A control-flow graph (`models.CFG`). -/
structure CFG where
  nodes : List CFGNode
  edges : List CFGEdge
  deriving Repr, DecidableEq

/-- A preprocessed submission artifact (`models.Artifact`); nil-able Go
pointers become `Option`. -/
structure Artifact where
  email : String
  attemptID : String
  testID : String
  driveID : String
  difficulty : String
  qID : ℤ
  language : String
  langCode : String
  tokens : List String
  normalizedTokens : List String
  ast : Option ASTNode
  cfg : Option CFG
  fingerprints : Option Fingerprints

/-! ## Fingerprint kernel (internal/plagiarism/fingerprint.go) -/

/-- The set of distinct fingerprint hashes of a `Fingerprints` value
(the Go code builds `map[string]bool` over `Hashes`). -/
def hashSet (f : Fingerprints) : Finset String :=
  (f.hashes.map HashEntry.hash).toFinset

/-- `FingerprintSimilarity`: `shared / min(|A|, |B|)` over distinct-hash
sets; `0` when either side has nil fingerprints or an empty hash set. -/
def FingerprintSimilarity (artifactA artifactB : Artifact) : ℚ :=
  match artifactA.fingerprints, artifactB.fingerprints with
  | none, _ => 0
  | _, none => 0
  | some fA, some fB =>
    let hashesA := hashSet fA
    let hashesB := hashSet fB
    let sharedCount := (hashesA ∩ hashesB).card
    let totalA := hashesA.card
    let totalB := hashesB.card
    if totalA = 0 ∨ totalB = 0 then 0
    else (sharedCount : ℚ) / (min totalA totalB : ℚ)

/-! ## Token kernel: greedy string tiling (internal/plagiarism/token.go)

The Go implementation mutates two bool arrays `matched`/`matchedB`; these
are modelled as the `Finset ℕ` of marked positions. The unbounded outer
`for` loop is modelled with fuel `|A| + 1`, which is sufficient: every
iteration that does not break marks at least one fresh position of `A`. -/

/-- The innermost `k`-loop with fuel: length of the common extension
starting at positions `i`, `j` through unmarked, equal tokens. The `k`
loop runs at most `|A|` times, so `matchLen` passes fuel `|A|`. -/
def matchLenFuel (tokensA tokensB : List String) (mA mB : Finset ℕ) :
    ℕ → ℕ → ℕ → ℕ
  | 0, _, _ => 0
  | fuel + 1, i, j =>
    if h : i < tokensA.length ∧ j < tokensB.length then
      if i ∈ mA ∨ j ∈ mB then 0
      else if tokensA.get ⟨i, h.1⟩ ≠ tokensB.get ⟨j, h.2⟩ then 0
      else matchLenFuel tokensA tokensB mA mB fuel (i + 1) (j + 1) + 1
    else 0

/-- Length of the common extension starting at positions `i`, `j`. -/
def matchLen (tokensA tokensB : List String) (mA mB : Finset ℕ) (i j : ℕ) : ℕ :=
  matchLenFuel tokensA tokensB mA mB tokensA.length i j

/-- One candidate update of the scan state `(maxMatch, maxStartA, maxStartB)`:
adopt `(ml, i, j)` when `ml ≥ minLength` and `ml > maxMatch`. The Go code
initialises `maxStartA = maxStartB = -1`; those sentinels are never read
because the loop breaks when `maxMatch = 0`, so the state starts at
`(0, 0, 0)` here. -/
def tryMatch (minLength : ℕ) (st : ℕ × ℕ × ℕ) (ml i j : ℕ) : ℕ × ℕ × ℕ :=
  if minLength ≤ ml ∧ st.1 < ml then (ml, i, j) else st

/-- The inner `j`-loop of the maximal-match scan at a fixed `i`. -/
def innerScan (tokensA tokensB : List String) (mA mB : Finset ℕ) (minLength i : ℕ)
    (st : ℕ × ℕ × ℕ) : ℕ × ℕ × ℕ :=
  (List.range tokensB.length).foldl
    (fun s j =>
      if j ∈ mB then s
      else tryMatch minLength s (matchLen tokensA tokensB mA mB i j) i j)
    st

/-- The full `i`/`j` scan for the maximal common substring of unmarked
positions. -/
def bestMatch (tokensA tokensB : List String) (mA mB : Finset ℕ) (minLength : ℕ) :
    ℕ × ℕ × ℕ :=
  (List.range tokensA.length).foldl
    (fun s i => if i ∈ mA then s else innerScan tokensA tokensB mA mB minLength i s)
    (0, 0, 0)

/-- Mark the `mm` positions starting at `start`. -/
def markRange (m : Finset ℕ) (start mm : ℕ) : Finset ℕ :=
  m ∪ (Finset.range mm).image (· + start)

/-- The outer `for {}` loop of `greedyStringTiling`, with fuel. -/
def gstLoop (tokensA tokensB : List String) (minLength : ℕ) :
    ℕ → Finset ℕ → Finset ℕ → ℕ → ℕ
  | 0, _, _, total => total
  | fuel + 1, mA, mB, total =>
    let best := bestMatch tokensA tokensB mA mB minLength
    if best.1 = 0 then total
    else gstLoop tokensA tokensB minLength fuel
      (markRange mA best.2.1 best.1) (markRange mB best.2.2 best.1) (total + best.1)

/-- `greedyStringTiling`: the number of matched tokens. -/
def greedyStringTiling (tokensA tokensB : List String) (minLength : ℕ) : ℕ :=
  gstLoop tokensA tokensB minLength (tokensA.length + 1) ∅ ∅ 0

/-- `TokenSimilarity`: `2·matched / (|A| + |B|)` with `minLength = 5`. -/
def TokenSimilarity (artifactA artifactB : Artifact) : ℚ :=
  let tokensA := artifactA.normalizedTokens
  let tokensB := artifactB.normalizedTokens
  if tokensA.length = 0 ∨ tokensB.length = 0 then 0
  else
    let matchedTokens := greedyStringTiling tokensA tokensB 5
    let totalLen := tokensA.length + tokensB.length
    if totalLen = 0 then 0
    else 2 * (matchedTokens : ℚ) / (totalLen : ℚ)

/-! ## AST kernel: Merkle subtree hashing (internal/plagiarism/ast.go)

The source hashes with SHA-256 (`computeHash`); here the whole kernel is
parametrised over an arbitrary hash function `h : String → String`, of
which SHA-256 is one instance. `sort.Strings` is modelled by `mergeSort`
with the byte-wise string order. -/

/-- `sort.Strings`: ascending lexicographic sort. -/
def sortStrings (l : List String) : List String :=
  l.mergeSort strLe

mutual

/-- `computeNodeHash`: hash of `type ∥ name ∥ returnType ∥ sorted child
hashes`. -/
def computeNodeHash (h : String → String) : ASTNode → String
  | .mk type name returnType children =>
    let base := type ++ (if name ≠ "" then name else "")
      ++ (if returnType ≠ "" then returnType else "")
    h (base ++ String.join (sortStrings (computeNodeHashList h children)))

/-- `computeNodeHash` mapped over a child list. -/
def computeNodeHashList (h : String → String) : List ASTNode → List String
  | [] => []
  | c :: cs => computeNodeHash h c :: computeNodeHashList h cs

end

mutual

/-- `buildSubtreeHashesRecursive`: the set of subtree hashes inserted for a
node — the node's own entry hashes `type ∥ sorted full child hashes`
(without `name`/`returnType`), and every descendant contributes its own
entry. -/
def subtreeHashes (h : String → String) : ASTNode → Finset String
  | .mk type _ _ children =>
    subtreeHashesList h children ∪
      {h (type ++ String.join (sortStrings (computeNodeHashList h children)))}

/-- Union of `subtreeHashes` over a child list. -/
def subtreeHashesList (h : String → String) : List ASTNode → Finset String
  | [] => ∅
  | c :: cs => subtreeHashes h c ∪ subtreeHashesList h cs

end

/-- `ASTSimilarity`: `|SA ∩ SB| / min(|SA|, |SB|)` over subtree-hash sets;
`0` when either AST is nil. -/
def ASTSimilarity (h : String → String) (artifactA artifactB : Artifact) : ℚ :=
  match artifactA.ast, artifactB.ast with
  | none, _ => 0
  | _, none => 0
  | some tA, some tB =>
    let subtreesA := subtreeHashes h tA
    let subtreesB := subtreeHashes h tB
    let commonCount := (subtreesA ∩ subtreesB).card
    let totalA := subtreesA.card
    let totalB := subtreesB.card
    if totalA = 0 ∨ totalB = 0 then 0
    else (commonCount : ℚ) / (min totalA totalB : ℚ)

/-! ## CFG kernel: feature-vector distance (internal/plagiarism/cfg.go) -/

/-- Adjacency list of a CFG: successors of `id` in edge order. -/
def cfgAdj (g : CFG) (id : String) : List String :=
  (g.edges.filter (fun e => e.from_ = id)).map CFGEdge.to_

/-- One DFS visit of `detectLoops`, with fuel. Returns the updated
`(visited, loopCount)`; `recStack` is threaded explicitly. The Go
recursion always terminates because each call marks a fresh node visited;
the fuel passed by `detectLoops` dominates the number of reachable ids. -/
def dfsLoops (g : CFG) : ℕ → String → Finset String → Finset String → ℕ →
    Finset String × ℕ
  | 0, _, visited, _, loopCount => (visited, loopCount)
  | fuel + 1, node, visited, recStack, loopCount =>
    let visited' := insert node visited
    let recStack' := insert node recStack
    let step := (cfgAdj g node).foldl
      (fun (st : Finset String × ℕ) neighbor =>
        if neighbor ∉ st.1 then dfsLoops g fuel neighbor st.1 recStack' st.2
        else if neighbor ∈ recStack' then (st.1, st.2 + 1)
        else st)
      (visited', loopCount)
    step

/-- `detectLoops`: count back edges by DFS from each unvisited ENTRY node. -/
def detectLoops (g : CFG) : ℕ :=
  let fuel := g.nodes.length + 2 * g.edges.length + 1
  (g.nodes.foldl
    (fun (st : Finset String × ℕ) node =>
      if node.type = "ENTRY" ∧ node.id ∉ st.1 then
        dfsLoops g fuel node.id st.1 ∅ st.2
      else st)
    (∅, 0)).2

/-- One BFS round of `calculateMaxDepth`, with fuel: pops the queue head,
skips visited ids, records the depth, pushes unvisited successors. -/
def bfsDepth (g : CFG) : ℕ → List (String × ℕ) → Finset String → ℕ → ℕ
  | 0, _, _, maxDepth => maxDepth
  | _ + 1, [], _, maxDepth => maxDepth
  | fuel + 1, (id, depth) :: queue, visited, maxDepth =>
    if id ∈ visited then bfsDepth g fuel queue visited maxDepth
    else
      let visited' := insert id visited
      let maxDepth' := max maxDepth depth
      let queue' := queue ++ ((cfgAdj g id).filter (· ∉ visited')).map (·, depth + 1)
      bfsDepth g fuel queue' visited' maxDepth'

/-- `calculateMaxDepth`: BFS depth from the first ENTRY node. -/
def calculateMaxDepth (g : CFG) : ℕ :=
  match g.nodes.find? (fun n => n.type = "ENTRY") with
  | none => 0
  | some entry =>
    let fuel := (g.nodes.length + 2 * g.edges.length + 1) * (g.edges.length + 1)
    bfsDepth g fuel [(entry.id, 0)] ∅ 0

/-- The 6-dimensional CFG feature vector
`[#nodes, #edges, #branches, #loops, maxDepth, cyclomatic]`. -/
structure CFGFeatures where
  nodes : ℚ
  edges : ℚ
  branches : ℚ
  loops : ℚ
  maxDepth : ℚ
  cyclomatic : ℚ
  deriving Repr, DecidableEq

/-- `extractCFGFeatures`. Note `cyclomatic = edges − nodes + 2`, which is
`2` for an empty CFG. -/
def extractCFGFeatures (g : CFG) : CFGFeatures where
  nodes := (g.nodes.length : ℚ)
  edges := (g.edges.length : ℚ)
  branches := ((g.edges.filter (fun e => e.type = "BRANCH" ∨ e.type = "CONDITIONAL")).length : ℚ)
  loops := (detectLoops g : ℚ)
  maxDepth := (calculateMaxDepth g : ℚ)
  cyclomatic := (g.edges.length : ℚ) - (g.nodes.length : ℚ) + 2

/-- Sum of squared component differences (the radicand of
`euclideanDistance`). -/
def sqDist (u v : CFGFeatures) : ℚ :=
  (u.nodes - v.nodes) ^ 2 + (u.edges - v.edges) ^ 2 + (u.branches - v.branches) ^ 2
    + (u.loops - v.loops) ^ 2 + (u.maxDepth - v.maxDepth) ^ 2
    + (u.cyclomatic - v.cyclomatic) ^ 2

/-- Sum of squared components (the radicand of each magnitude in
`calculateMaxDistance`). -/
def sqNorm (v : CFGFeatures) : ℚ :=
  v.nodes ^ 2 + v.edges ^ 2 + v.branches ^ 2 + v.loops ^ 2 + v.maxDepth ^ 2
    + v.cyclomatic ^ 2

/-- `CFGSimilarity`: `clamp(1 − ‖vA − vB‖₂ / (‖vA‖₂ + ‖vB‖₂))`; `0` when
either CFG is nil, `1` when the denominator is `0`. -/
noncomputable def CFGSimilarity (artifactA artifactB : Artifact) : ℝ :=
  match artifactA.cfg, artifactB.cfg with
  | none, _ => 0
  | _, none => 0
  | some gA, some gB =>
    let featuresA := extractCFGFeatures gA
    let featuresB := extractCFGFeatures gB
    let distance := Real.sqrt (sqDist featuresA featuresB : ℝ)
    let maxDistance := Real.sqrt (sqNorm featuresA : ℝ) + Real.sqrt (sqNorm featuresB : ℝ)
    if maxDistance = 0 then 1
    else
      let score := 1 - distance / maxDistance
      let score1 := if score < 0 then 0 else score
      if score1 > 1 then 1 else score1

/-! ## Cascade pipeline (internal/plagiarism/cascade.go) -/

/-- Kernel weights by difficulty (`Weights`). -/
structure Weights where
  fingerprint : ℚ
  token : ℚ
  ast : ℚ
  cfg : ℚ
  deriving Repr, DecidableEq

/-- `getWeights`: difficulty-keyed weights, default medium. -/
def getWeights (difficulty : String) : Weights :=
  if difficulty = "easy" then ⟨1/2, 3/10, 3/20, 1/20⟩
  else if difficulty = "medium" then ⟨2/5, 3/10, 1/5, 1/10⟩
  else if difficulty = "hard" then ⟨3/10, 1/4, 3/10, 3/20⟩
  else ⟨2/5, 3/10, 1/5, 1/10⟩

/-- `getThreshold`: difficulty- and layer-keyed stage threshold. -/
def getThreshold (difficulty layer : String) : ℚ :=
  if difficulty = "easy" then
    if layer = "fingerprint" then 13/20
    else if layer = "token" then 3/5
    else if layer = "ast" then 29/50
    else if layer = "cfg" then 11/20
    else 11/20
  else if difficulty = "hard" then
    if layer = "fingerprint" then 13/25
    else if layer = "token" then 1/2
    else if layer = "ast" then 12/25
    else if layer = "cfg" then 9/20
    else 11/20
  else
    if layer = "fingerprint" then 29/50
    else if layer = "token" then 11/20
    else if layer = "ast" then 13/25
    else if layer = "cfg" then 1/2
    else 11/20

/-- `shouldShortCircuit`: `current + remainingMax < threshold`. -/
def shouldShortCircuit (currentScore remainingMax threshold : ℚ) : Bool :=
  decide (currentScore + remainingMax < threshold)

/-- Scores of all four kernels (`SimilarityScores`); the CFG entry is real
valued because that kernel takes square roots. -/
structure SimilarityScores where
  fingerprint : ℚ
  token : ℚ
  ast : ℚ
  cfg : ℝ

/-- Result of the cascade (`CascadeResult`). -/
structure CascadeResult where
  scores : SimilarityScores
  shortCircuited : Bool
  finalScore : ℝ

/-- Weighted partial sum after the fingerprint stage. -/
def partialFP (artifactA artifactB : Artifact) (difficulty : String) : ℚ :=
  FingerprintSimilarity artifactA artifactB * (getWeights difficulty).fingerprint

/-- Weighted partial sum after the token stage. -/
def partialToken (artifactA artifactB : Artifact) (difficulty : String) : ℚ :=
  partialFP artifactA artifactB difficulty
    + TokenSimilarity artifactA artifactB * (getWeights difficulty).token

/-- Weighted partial sum after the AST stage. -/
def partialAST (h : String → String) (artifactA artifactB : Artifact)
    (difficulty : String) : ℚ :=
  partialToken artifactA artifactB difficulty
    + ASTSimilarity h artifactA artifactB * (getWeights difficulty).ast

/-- Sum of the weights of the kernels not yet run after the fingerprint
stage. -/
def remAfterFP (difficulty : String) : ℚ :=
  (getWeights difficulty).token + (getWeights difficulty).ast + (getWeights difficulty).cfg

/-- Sum of the weights of the kernels not yet run after the token stage. -/
def remAfterToken (difficulty : String) : ℚ :=
  (getWeights difficulty).ast + (getWeights difficulty).cfg

/-- Sum of the weights of the kernels not yet run after the AST stage. -/
def remAfterAST (difficulty : String) : ℚ :=
  (getWeights difficulty).cfg

/-- `CascadePipeline`: Fingerprint → Token → AST → CFG with progressive
short-circuit; `remainingMax` starts at the total weight and decreases as
stages run, exactly as in the source. -/
noncomputable def CascadePipeline (h : String → String)
    (artifactA artifactB : Artifact) (difficulty : String) : CascadeResult :=
  let fp := FingerprintSimilarity artifactA artifactB
  if shouldShortCircuit (partialFP artifactA artifactB difficulty)
      (remAfterFP difficulty) (getThreshold difficulty "fingerprint") then
    { scores := ⟨fp, 0, 0, 0⟩, shortCircuited := true,
      finalScore := (partialFP artifactA artifactB difficulty : ℝ) }
  else
    let token := TokenSimilarity artifactA artifactB
    if shouldShortCircuit (partialToken artifactA artifactB difficulty)
        (remAfterToken difficulty) (getThreshold difficulty "token") then
      { scores := ⟨fp, token, 0, 0⟩, shortCircuited := true,
        finalScore := (partialToken artifactA artifactB difficulty : ℝ) }
    else
      let astScore := ASTSimilarity h artifactA artifactB
      if shouldShortCircuit (partialAST h artifactA artifactB difficulty)
          (remAfterAST difficulty) (getThreshold difficulty "ast") then
        { scores := ⟨fp, token, astScore, 0⟩, shortCircuited := true,
          finalScore := (partialAST h artifactA artifactB difficulty : ℝ) }
      else
        let cfgScore := CFGSimilarity artifactA artifactB
        { scores := ⟨fp, token, astScore, cfgScore⟩, shortCircuited := false,
          finalScore := (partialAST h artifactA artifactB difficulty : ℝ)
            + cfgScore * ((getWeights difficulty).cfg : ℝ) }

/-! ## Inverted-index filter (GII) -/

/-- `getPairKey`: `min(a,b) ++ ":" ++ max(a,b)` under Go string order. -/
def getPairKey (id1 id2 : String) : String :=
  if strLt id1 id2 then id1 ++ ":" ++ id2 else id2 ++ ":" ++ id1

/-- The Global Inverted Index `hash → [attemptIDs]`, modelled as an
association list (one entry per hash). -/
def GII := List (String × List String)

/-- Append `id` to the entry of `hash`, creating the entry if absent
(Go `gii[hash] = append(gii[hash], attemptID)`). -/
def giiAppend (gii : List (String × List String)) (hash id : String) :
    List (String × List String) :=
  match gii with
  | [] => [(hash, [id])]
  | (k, ids) :: rest =>
    if k = hash then (k, ids ++ [id]) :: rest
    else (k, ids) :: giiAppend rest hash id

/-- `BuildGII`: first pass appends each artifact's hashes, second pass
keeps only hashes produced by at least two attempts. -/
def BuildGII (artifacts : List Artifact) : GII :=
  let firstPass := artifacts.foldl
    (fun gii artifact =>
      match artifact.fingerprints with
      | none => gii
      | some f => f.hashes.foldl (fun g entry => giiAppend g entry.hash artifact.attemptID) gii)
    []
  firstPass.filter (fun e => 2 ≤ e.2.length)

/-- `calculateOverlap`: `shared / min(|A|, |B|)` over distinct-hash sets,
`0` when either side is nil or empty. -/
def calculateOverlap (artifactA artifactB : Artifact) : ℚ :=
  match artifactA.fingerprints, artifactB.fingerprints with
  | none, _ => 0
  | _, none => 0
  | some fA, some fB =>
    let hashesA := hashSet fA
    let hashesB := hashSet fB
    let sharedCount := (hashesA ∩ hashesB).card
    if hashesA.card = 0 ∨ hashesB.card = 0 then 0
    else (sharedCount : ℚ) / (min hashesA.card hashesB.card : ℚ)

/-- `getWorthyThreshold`: overlap threshold by difficulty, default medium. -/
def getWorthyThreshold (difficulty : String) : ℚ :=
  if difficulty = "easy" then 3/20
  else if difficulty = "medium" then 1/10
  else if difficulty = "hard" then 1/20
  else 1/10

/-- A candidate pair of artifacts (`Pair`). -/
structure Pair where
  artifactA : Artifact
  artifactB : Artifact

/-- `artifactMap[id]` lookup: the last artifact in the list with the given
attempt id (later map writes overwrite earlier ones). -/
def lookupArtifact (artifacts : List Artifact) (id : String) : Option Artifact :=
  artifacts.foldl (fun acc a => if a.attemptID = id then some a else acc) none

/-- All `i < j` index pairs of a list, in scan order. -/
def orderedPairs {α : Type} : List α → List (α × α)
  | [] => []
  | x :: xs => xs.map (fun y => (x, y)) ++ orderedPairs xs

/-- Insert a pair under `key` unless the key is already present
(`pairMap[pairKey]` guarded by the `exists` check). -/
def insertIfAbsent (pairMap : List (String × Pair)) (key : String) (pair : Pair) :
    List (String × Pair) :=
  if pairMap.any (fun e => e.1 = key) then pairMap else pairMap ++ [(key, pair)]

/-- The per-hash double loop of `GetWorthyPairs`: consider every `i < j`
pair of the hash's artifacts and record those whose overlap meets the
threshold. -/
def addWorthyPairs (threshold : ℚ) (hashArtifacts : List Artifact)
    (pairMap : List (String × Pair)) : List (String × Pair) :=
  (orderedPairs hashArtifacts).foldl
    (fun pm ab =>
      if calculateOverlap ab.1 ab.2 ≥ threshold then
        insertIfAbsent pm (getPairKey ab.1.attemptID ab.2.attemptID) ⟨ab.1, ab.2⟩
      else pm)
    pairMap

/-- The `pairMap` of `GetWorthyPairs` after walking every index entry:
entries with fewer than two producers are skipped, the rest contribute
their above-threshold pairs. -/
def worthyPairMap (gii : GII) (artifacts : List Artifact) (difficulty : String) :
    List (String × Pair) :=
  gii.foldl
    (fun pm entry =>
      if entry.2.length < 2 then pm
      else addWorthyPairs (getWorthyThreshold difficulty)
        (entry.2.filterMap (lookupArtifact artifacts)) pm)
    []

/-- `GetWorthyPairs`: for each hash with at least two producers, emit the
de-duplicated pairs whose overlap meets the difficulty threshold. -/
def GetWorthyPairs (gii : GII) (artifacts : List Artifact) (difficulty : String) :
    List Pair :=
  (worthyPairMap gii artifacts difficulty).map Prod.snd

/-! ## Candidate scoring (two source copies of `CandidateScore`)

`PairSimilarity.finalScore` is a kernel-weighted cascade score; the scoring
functions only compare and average it, so it is modelled over `ℚ`. -/

/-- `SignificantSimilarityThreshold = 0.55` (the named constant of the
copy that declares it). -/
def SignificantSimilarityThreshold : ℚ := 11/20

/-- `AlgorithmicSimilarityThreshold = 0.70`. -/
def AlgorithmicSimilarityThreshold : ℚ := 7/10

/-- A scored pair (`PairSimilarity`). -/
structure PairSimilarity where
  artifactA : Artifact
  artifactB : Artifact
  finalScore : ℚ
  qid : String
  difficulty : String

/-- Descending insertion step for `sortPairsDesc`. -/
def insertPairDesc (p : PairSimilarity) : List PairSimilarity → List PairSimilarity
  | [] => [p]
  | q :: qs => if q.finalScore ≤ p.finalScore then p :: q :: qs else q :: insertPairDesc p qs

/-- `sort.Slice` with `FinalScore[i] > FinalScore[j]`: a sort into
descending final-score order (ties are immaterial to every consumer:
the top-`K` sum and the distinct-email count are order-insensitive). -/
def sortPairsDesc : List PairSimilarity → List PairSimilarity
  | [] => []
  | p :: ps => insertPairDesc p (sortPairsDesc ps)

/-- Number of distinct `ArtifactB` emails (`len(distinctCandidates)`); Go
builds a `map[string]bool`. -/
def distinctBEmails (pairs : List PairSimilarity) : ℕ :=
  (pairs.map (fun p => p.artifactB.email)).dedup.length

/-- `CandidateScore` as in the copy that uses the named threshold constant:
filter significant pairs, average the top `K`, add the frequency boost over
distinct `ArtifactB` emails, clamp to `[0,1]`. -/
def CandidateScore (pairs : List PairSimilarity) : ℚ :=
  let significantPairs := pairs.filter
    (fun p => SignificantSimilarityThreshold ≤ p.finalScore)
  if significantPairs.length = 0 then 0
  else
    let K := if significantPairs.length < 3 then significantPairs.length else 3
    let topScores := (sortPairsDesc significantPairs).take K
    let sum := (topScores.map PairSimilarity.finalScore).sum
    let candidateScore := sum / (K : ℚ)
    let M := distinctBEmails significantPairs
    let boost := if M = 0 then 0 else min (3/20 : ℚ) (1/20 * ((M : ℚ) - 1))
    let candidateScore := candidateScore + boost
    let candidateScore := if 1 < candidateScore then 1 else candidateScore
    if candidateScore < 0 then 0 else candidateScore

/-- The second source copy of `CandidateScore`, identical except for the
inlined `0.55` threshold literal. -/
def CandidateScoreV2 (pairs : List PairSimilarity) : ℚ :=
  let significantPairs := pairs.filter (fun p => (11/20 : ℚ) ≤ p.finalScore)
  if significantPairs.length = 0 then 0
  else
    let K := if significantPairs.length < 3 then significantPairs.length else 3
    let topScores := (sortPairsDesc significantPairs).take K
    let sum := (topScores.map PairSimilarity.finalScore).sum
    let candidateScore := sum / (K : ℚ)
    let M := distinctBEmails significantPairs
    let boost := if M = 0 then 0 else min (3/20 : ℚ) (1/20 * ((M : ℚ) - 1))
    let candidateScore := candidateScore + boost
    let candidateScore := if 1 < candidateScore then 1 else candidateScore
    if candidateScore < 0 then 0 else candidateScore

/-- Clamp to `[0, 1]`. -/
def clamp01 (x : ℚ) : ℚ := max 0 (min 1 x)

/-- The TopK+boost formula in the spec's wording, with the boost counting
distinct `ArtifactB` emails (the orientation the code actually uses): sort
descending, average the top `min(3, count)`, add
`min(0.15, 0.05·(M − 1))` (`0` if `M = 0`), clamp to `[0,1]`. -/
def specTopKBoost (pairs : List PairSimilarity) : ℚ :=
  if pairs.length = 0 then 0
  else
    let K := min 3 pairs.length
    let topAvg := ((sortPairsDesc pairs).take K |>.map PairSimilarity.finalScore).sum / (K : ℚ)
    let M := distinctBEmails pairs
    let boost := if M = 0 then 0 else min (3/20 : ℚ) (1/20 * ((M : ℚ) - 1))
    clamp01 (topAvg + boost)

/-- The peer email of a pair from candidate `e`'s point of view: the other
endpoint's email. -/
def peerEmail (e : String) (p : PairSimilarity) : String :=
  if p.artifactA.email = e then p.artifactB.email else p.artifactA.email

/-- The claimed TopK+boost formula: as `specTopKBoost`, but with the boost
counting distinct PEER emails of candidate `e`, independent of pair
orientation. -/
def claimTopKBoostPeers (e : String) (pairs : List PairSimilarity) : ℚ :=
  if pairs.length = 0 then 0
  else
    let K := min 3 pairs.length
    let topAvg := ((sortPairsDesc pairs).take K |>.map PairSimilarity.finalScore).sum / (K : ℚ)
    let M := (pairs.map (peerEmail e)).dedup.length
    let boost := if M = 0 then 0 else min (3/20 : ℚ) (1/20 * ((M : ℚ) - 1))
    clamp01 (topAvg + boost)

/-! ## Worker pool sizing (NewWorkerPool) -/

/-- The worker count of `NewWorkerPool`:
`totalCPU − max(1, totalCPU/4)` (Go integer division). -/
def workerPoolSize (totalCPU : ℤ) : ℤ :=
  totalCPU - max 1 (totalCPU / 4)

/-- The job-queue capacity: `size * 2`. -/
def jobQueueCapacity (totalCPU : ℤ) : ℤ :=
  workerPoolSize totalCPU * 2

/-! ## Compute endpoint decision logic (internal/api/handlers.go)

The handler is modelled as a pure decision function over an environment
describing the request and the collaborating stores. The branch that
detects an existing completed report only writes the status ledger and
falls through — the source has no `409` response. -/

/-- The environment a `Compute` call observes. -/
structure ComputeEnv where
  /-- `ShouldBindJSON` succeeded. -/
  validBody : Bool
  /-- `req.DriveID` is non-empty (`validateComputePayload`). -/
  driveIDPresent : Bool
  /-- `CountArtifactsByDriveID` failed. -/
  countErr : Bool
  /-- Number of artifacts for the drive. -/
  artifactCount : ℕ
  /-- `GetLatestReportByDriveID` failed. -/
  reportErr : Bool
  /-- Status of the latest persisted report, if any. -/
  latestReportStatus : Option String
  /-- The request context fired before the semaphore was acquired. -/
  ctxCancelled : Bool

/-- What the handler does: the HTTP status written, whether the
already-completed ledger update ran, and whether an asynchronous
drive-level computation was started. -/
structure ComputeDecision where
  httpStatus : ℕ
  updatesCompletedStatus : Bool
  startsComputation : Bool
  deriving Repr, DecidableEq

/-- The `Compute` handler's control flow. -/
def computeHandler (env : ComputeEnv) : ComputeDecision :=
  if !env.validBody then ⟨400, false, false⟩
  else if !env.driveIDPresent then ⟨400, false, false⟩
  else if env.countErr then ⟨500, false, false⟩
  else if env.artifactCount = 0 then ⟨400, false, false⟩
  else if env.reportErr then ⟨500, false, false⟩
  else
    let completed := env.latestReportStatus = some "completed"
    if env.ctxCancelled then ⟨408, completed, false⟩
    else ⟨202, completed, true⟩

/-! ## Aggregation reduction (internal/plagiarism/status.go)

`ComputePlagiarism` appends every significant pair to
`candidatePairsMap[A.Email]` and to `candidatePairsMap[B.Email]`;
`aggregateResults` then counts a candidate's pairs with score at least
`0.55` (`codeSimilarity`) and at least `0.70` (`algoSimilarity`). -/

/-- The list `candidatePairsMap[e]` after the per-bucket append loop: each
significant pair is appended once for its `ArtifactA` email and once for
its `ArtifactB` email (twice when they coincide). -/
def candidatePairsFor (e : String) : List PairSimilarity → List PairSimilarity
  | [] => []
  | p :: ps =>
    (if p.artifactA.email = e then [p] else [])
      ++ (if p.artifactB.email = e then [p] else [])
      ++ candidatePairsFor e ps

/-- The pair key of a scored pair. -/
def pairKeyOf (p : PairSimilarity) : String :=
  getPairKey p.artifactA.attemptID p.artifactB.attemptID

/-- `codeSimilarity` of candidate `e`: pairs in `candidatePairsMap[e]`
with final score at least `0.55`. -/
def candidateCodeSimilarity (e : String) (sigPairs : List PairSimilarity) : ℕ :=
  (candidatePairsFor e sigPairs).countP (fun p => decide ((11/20 : ℚ) ≤ p.finalScore))

/-- `algoSimilarity` of candidate `e`: pairs in `candidatePairsMap[e]`
with final score at least `0.70`. -/
def candidateAlgoSimilarity (e : String) (sigPairs : List PairSimilarity) : ℕ :=
  (candidatePairsFor e sigPairs).countP (fun p => decide ((7/10 : ℚ) ≤ p.finalScore))

/-! ## Concrete fixtures used by witnesses and counterexamples -/

/-- An artifact carrying only an email, attempt id and normalized tokens. -/
def tokArtifact (e id : String) (ts : List String) : Artifact :=
  ⟨e, id, "", "", "", 0, "", "", [], ts, none, none, none⟩

/-- An artifact carrying only fingerprints. -/
def fpArtifact (e id : String) (hs : List String) : Artifact :=
  ⟨e, id, "", "", "", 0, "", "", [], [], none, none,
    some ⟨"winnow", 5, 4, hs.map (⟨·, 0⟩)⟩⟩

/-- A scored pair between two otherwise-empty artifacts. -/
def mkPair (a b : String) (s : ℚ) : PairSimilarity :=
  ⟨tokArtifact a (a ++ "1") [], tokArtifact b (b ++ "1") [], s, "1", "easy"⟩

/-- First half of the token-symmetry counterexample: `aabA` blown up by
a factor of three so every match reaches `minLength = 5`. -/
def gstTokensA : List String :=
  ["a0", "a1", "a2", "a0", "a1", "a2", "b0", "b1", "b2", "a0", "a1", "a2"]

/-- Second half of the token-symmetry counterexample. -/
def gstTokensB : List String :=
  ["b0", "b1", "b2", "a0", "a1", "a2", "a0", "a1", "a2", "a0", "a1", "a2"]

/-! ## C10 — the two source copies of CandidateScore agree -/

/-- C10: the `CandidateScore` of `src/unnamed/part_002` (inlined `0.55`
literal) and the `CandidateScore` of `src/unnamed/part_003` (named
threshold constant) return exactly the same score on every input. -/
theorem candidateScore_copies_agree (pairs : List PairSimilarity) :
    CandidateScoreV2 pairs = CandidateScore pairs := rfl

/-! ## C5 — worker pool sizing -/

/-- C5 (amended): for every `NumCPU ≥ 1` the pool has exactly
`NumCPU − max(1, NumCPU/4)` workers — that is `NumCPU − NumCPU/4` when
`NumCPU ≥ 4` but `NumCPU − 1` when `NumCPU ≤ 3` (`0` workers on a
single-CPU host) — and the job queue holds twice the worker count. -/
theorem workerPool_size_and_capacity (numCPU : ℤ) (h : 1 ≤ numCPU) :
    workerPoolSize numCPU = (if 4 ≤ numCPU then numCPU - numCPU / 4 else numCPU - 1)
      ∧ jobQueueCapacity numCPU = 2 * workerPoolSize numCPU := by
  constructor
  · unfold workerPoolSize
    by_cases h4 : 4 ≤ numCPU
    · have h1 : (1 : ℤ) ≤ numCPU / 4 := by omega
      rw [if_pos h4, max_eq_right h1]
    · have h0 : numCPU / 4 = 0 := by omega
      rw [if_neg h4, h0]
      simp
  · unfold jobQueueCapacity
    ring

/-- C5 witness: at `NumCPU = 8` the pool has `8 − 8/4 = 6` workers and a
queue of capacity `12`. -/
theorem workerPool_size_and_capacity_witness :
    workerPoolSize 8 = 6 ∧ jobQueueCapacity 8 = 2 * workerPoolSize 8 := by
  have h := workerPool_size_and_capacity 8 (by norm_num)
  refine ⟨?_, h.2⟩
  rw [h.1]
  norm_num

/-- C5 counterexample: on a 2-CPU host the pool has `2 − max(1, 0) = 1`
worker, not the claimed `max(1, 2 − 2/4) = 2`. -/
theorem workerPool_size_claim_false :
    workerPoolSize 2 = 1 ∧ max 1 ((2 : ℤ) - 2 / 4) = 2 ∧ (1 : ℤ) ≠ 2 := by
  refine ⟨by decide, by decide, by decide⟩

/-! ## C4 — the Compute endpoint on an already-completed drive -/

/-- C4: the handler has no `409` path at all — every response is `400`,
`500`, `408` or `202` — and on a drive with artifacts whose latest report
is `completed` it responds `202` and still starts a new drive-level
computation (the completed-report branch only refreshes the status ledger
and falls through). -/
theorem computeHandler_no_conflict_response :
    (∀ env, (computeHandler env).httpStatus = 400 ∨ (computeHandler env).httpStatus = 500
      ∨ (computeHandler env).httpStatus = 408 ∨ (computeHandler env).httpStatus = 202)
    ∧ computeHandler ⟨true, true, false, 3, false, some "completed", false⟩
        = ⟨202, true, true⟩ := by
  constructor
  · intro env
    simp only [computeHandler]
    split_ifs <;> simp
  · decide

/-! ## C1 — CandidateScore is TopK + boost (boost over ArtifactB emails) -/

/-- The source's two sequential clamping `if`s equal `clamp01`. -/
theorem clampSeq_eq (x : ℚ) :
    (if (if 1 < x then 1 else x) < 0 then 0 else (if 1 < x then 1 else x)) = clamp01 x := by
  unfold clamp01
  rcases lt_or_le 1 x with h1 | h1
  · rw [if_pos h1, if_neg (by norm_num : ¬(1 : ℚ) < 0), min_eq_left h1.le,
      max_eq_right (by norm_num : (0 : ℚ) ≤ 1)]
  · rw [if_neg (not_lt.mpr h1)]
    rcases lt_or_le x 0 with h2 | h2
    · rw [if_pos h2, min_eq_right h1, max_eq_left h2.le]
    · rw [if_neg (not_lt.mpr h2), min_eq_right h1, max_eq_right h2]

/-- C1 (amended): on a list all of whose pairs are significant
(`finalScore ≥ 0.55`), `CandidateScore` returns the average of the top
`K = min(3, count)` final scores (sorted descending) plus
`boost = min(0.15, 0.05·(M − 1))` where `M` counts the distinct
`ArtifactB` emails of the pairs — not the distinct peer emails, so the
boost depends on pair orientation — clamped to `[0,1]` (and `0` on the
empty list). -/
theorem candidateScore_topk_boost (pairs : List PairSimilarity)
    (hall : ∀ p ∈ pairs, SignificantSimilarityThreshold ≤ p.finalScore) :
    CandidateScore pairs = specTopKBoost pairs := by
  have hfilter : pairs.filter (fun p => SignificantSimilarityThreshold ≤ p.finalScore) = pairs :=
    List.filter_eq_self.mpr (fun p hp => decide_eq_true (hall p hp))
  simp only [CandidateScore, specTopKBoost, hfilter]
  by_cases h0 : pairs.length = 0
  · rw [if_pos h0, if_pos h0]
  · rw [if_neg h0, if_neg h0]
    have hK : (if pairs.length < 3 then pairs.length else 3) = min 3 pairs.length := by
      rw [min_def]; split_ifs <;> omega
    rw [hK, clampSeq_eq]

/-- C1 witness: four significant pairs with scores `0.9, 0.8, 0.7, 0.6`
against four distinct peers appearing as `ArtifactB`; the score is the
claimed `0.95`. -/
theorem candidateScore_topk_boost_witness :
    (∀ p ∈ [mkPair "e" "p1" (9/10), mkPair "e" "p2" (8/10), mkPair "e" "p3" (7/10),
        mkPair "e" "p4" (6/10)], SignificantSimilarityThreshold ≤ p.finalScore)
    ∧ CandidateScore [mkPair "e" "p1" (9/10), mkPair "e" "p2" (8/10), mkPair "e" "p3" (7/10),
        mkPair "e" "p4" (6/10)]
      = specTopKBoost [mkPair "e" "p1" (9/10), mkPair "e" "p2" (8/10), mkPair "e" "p3" (7/10),
        mkPair "e" "p4" (6/10)]
    ∧ CandidateScore [mkPair "e" "p1" (9/10), mkPair "e" "p2" (8/10), mkPair "e" "p3" (7/10),
        mkPair "e" "p4" (6/10)] = 19/20 := by
  refine ⟨?_, candidateScore_topk_boost _ ?_, ?_⟩
  · intro p hp
    simp only [List.mem_cons, List.mem_singleton, List.not_mem_nil, or_false] at hp
    rcases hp with rfl | rfl | rfl | rfl <;>
      norm_num [mkPair, tokArtifact, SignificantSimilarityThreshold]
  · intro p hp
    simp only [List.mem_cons, List.mem_singleton, List.not_mem_nil, or_false] at hp
    rcases hp with rfl | rfl | rfl | rfl <;>
      norm_num [mkPair, tokArtifact, SignificantSimilarityThreshold]
  · norm_num [CandidateScore, mkPair, tokArtifact, SignificantSimilarityThreshold,
      sortPairsDesc, insertPairDesc, distinctBEmails]
    simp
    norm_num

/-- C1 counterexample: two significant pairs `(p1, e, 0.9)` and
`(p2, e, 0.8)` for candidate `e`, oriented with the peers as `ArtifactA`.
There are two distinct peer emails, so the claimed formula adds a `0.05`
boost and yields `0.9`; the code counts one distinct `ArtifactB` email
(`e` itself), adds no boost and returns `0.85`. -/
theorem candidateScore_peer_boost_false :
    CandidateScore [mkPair "p1" "e" (9/10), mkPair "p2" "e" (8/10)] = 17/20
    ∧ claimTopKBoostPeers "e" [mkPair "p1" "e" (9/10), mkPair "p2" "e" (8/10)] = 9/10
    ∧ (17/20 : ℚ) ≠ 9/10 := by
  refine ⟨?_, ?_, by norm_num⟩
  · norm_num [CandidateScore, mkPair, tokArtifact, SignificantSimilarityThreshold,
      sortPairsDesc, insertPairDesc, distinctBEmails]
  · norm_num [claimTopKBoostPeers, mkPair, tokArtifact, sortPairsDesc, insertPairDesc,
      peerEmail, clamp01]
    all_goals simp
    all_goals norm_num

/-! ## C2 — cascade short-circuit soundness -/

/-- The weight remaining after the fingerprint stage is nonnegative. -/
theorem remAfterFP_nonneg (difficulty : String) : 0 ≤ remAfterFP difficulty := by
  unfold remAfterFP getWeights
  split_ifs <;> norm_num

/-- The weight remaining after the token stage is nonnegative. -/
theorem remAfterToken_nonneg (difficulty : String) : 0 ≤ remAfterToken difficulty := by
  unfold remAfterToken getWeights
  split_ifs <;> norm_num

/-- The weight remaining after the AST stage is nonnegative. -/
theorem remAfterAST_nonneg (difficulty : String) : 0 ≤ remAfterAST difficulty := by
  unfold remAfterAST getWeights
  split_ifs <;> norm_num

/-- C2: whenever `CascadePipeline` sets `ShortCircuited`, it did so at the
fingerprint, token or AST stage (the CFG stage has no short-circuit
check), the final score is exactly the weighted partial sum accumulated
through that stage, that partial sum is strictly below the stage's
difficulty-keyed threshold, and so is the partial sum plus the total
weight of all unrun kernels — the threshold is unreachable even if every
remaining kernel scored `1.0`. -/
theorem cascade_short_circuit_sound (h : String → String) (artifactA artifactB : Artifact)
    (difficulty : String)
    (hsc : (CascadePipeline h artifactA artifactB difficulty).shortCircuited = true) :
    ((CascadePipeline h artifactA artifactB difficulty).finalScore
        = (partialFP artifactA artifactB difficulty : ℝ)
      ∧ partialFP artifactA artifactB difficulty < getThreshold difficulty "fingerprint"
      ∧ partialFP artifactA artifactB difficulty + remAfterFP difficulty
          < getThreshold difficulty "fingerprint")
    ∨ ((CascadePipeline h artifactA artifactB difficulty).finalScore
        = (partialToken artifactA artifactB difficulty : ℝ)
      ∧ partialToken artifactA artifactB difficulty < getThreshold difficulty "token"
      ∧ partialToken artifactA artifactB difficulty + remAfterToken difficulty
          < getThreshold difficulty "token")
    ∨ ((CascadePipeline h artifactA artifactB difficulty).finalScore
        = (partialAST h artifactA artifactB difficulty : ℝ)
      ∧ partialAST h artifactA artifactB difficulty < getThreshold difficulty "ast"
      ∧ partialAST h artifactA artifactB difficulty + remAfterAST difficulty
          < getThreshold difficulty "ast") := by
  by_cases h1 : shouldShortCircuit (partialFP artifactA artifactB difficulty)
      (remAfterFP difficulty) (getThreshold difficulty "fingerprint") = true
  · left
    have hlt := of_decide_eq_true h1
    refine ⟨?_, lt_of_le_of_lt (le_add_of_nonneg_right (remAfterFP_nonneg difficulty)) hlt, hlt⟩
    simp only [CascadePipeline, h1, if_true]
  · by_cases h2 : shouldShortCircuit (partialToken artifactA artifactB difficulty)
        (remAfterToken difficulty) (getThreshold difficulty "token") = true
    · right; left
      have hlt := of_decide_eq_true h2
      refine ⟨?_, lt_of_le_of_lt (le_add_of_nonneg_right (remAfterToken_nonneg difficulty)) hlt,
        hlt⟩
      simp only [CascadePipeline, h1, h2, if_true, Bool.false_eq_true, if_false]
    · by_cases h3 : shouldShortCircuit (partialAST h artifactA artifactB difficulty)
          (remAfterAST difficulty) (getThreshold difficulty "ast") = true
      · right; right
        have hlt := of_decide_eq_true h3
        refine ⟨?_, lt_of_le_of_lt (le_add_of_nonneg_right (remAfterAST_nonneg difficulty)) hlt,
          hlt⟩
        simp only [CascadePipeline, h1, h2, h3, if_true, Bool.false_eq_true, if_false]
      · exfalso
        have : (CascadePipeline h artifactA artifactB difficulty).shortCircuited = false := by
          simp only [CascadePipeline, h1, h2, h3, Bool.false_eq_true, if_false]
        rw [this] at hsc
        exact Bool.false_ne_true hsc

/-- First artifact of the cascade witness: no fingerprints at all. -/
def cascadeWitnessA : Artifact := tokArtifact "e1" "a" []

/-- Second artifact of the cascade witness. -/
def cascadeWitnessB : Artifact := tokArtifact "e2" "b" []

/-- C2 witness: two artifacts without fingerprints score `0` at the
fingerprint stage on `easy`; `0 + 0.5 < 0.65` short-circuits there with
final score `0`. -/
theorem cascade_short_circuit_sound_witness :
    (CascadePipeline id cascadeWitnessA cascadeWitnessB "easy").shortCircuited = true
    ∧ (((CascadePipeline id cascadeWitnessA cascadeWitnessB "easy").finalScore
          = (partialFP cascadeWitnessA cascadeWitnessB "easy" : ℝ)
        ∧ partialFP cascadeWitnessA cascadeWitnessB "easy" < getThreshold "easy" "fingerprint"
        ∧ partialFP cascadeWitnessA cascadeWitnessB "easy" + remAfterFP "easy"
            < getThreshold "easy" "fingerprint")
      ∨ ((CascadePipeline id cascadeWitnessA cascadeWitnessB "easy").finalScore
          = (partialToken cascadeWitnessA cascadeWitnessB "easy" : ℝ)
        ∧ partialToken cascadeWitnessA cascadeWitnessB "easy" < getThreshold "easy" "token"
        ∧ partialToken cascadeWitnessA cascadeWitnessB "easy" + remAfterToken "easy"
            < getThreshold "easy" "token")
      ∨ ((CascadePipeline id cascadeWitnessA cascadeWitnessB "easy").finalScore
          = (partialAST id cascadeWitnessA cascadeWitnessB "easy" : ℝ)
        ∧ partialAST id cascadeWitnessA cascadeWitnessB "easy" < getThreshold "easy" "ast"
        ∧ partialAST id cascadeWitnessA cascadeWitnessB "easy" + remAfterAST "easy"
            < getThreshold "easy" "ast")) := by
  have hsc : (CascadePipeline id cascadeWitnessA cascadeWitnessB "easy").shortCircuited
      = true := by
    norm_num [CascadePipeline, shouldShortCircuit, partialFP, remAfterFP,
      FingerprintSimilarity, cascadeWitnessA, cascadeWitnessB, tokArtifact, getWeights,
      getThreshold]
  exact ⟨hsc, cascade_short_circuit_sound id _ _ "easy" hsc⟩

/-! ## C9 — pair-key symmetry and aggregator de-duplication -/

/-- `getPairKey` is orientation-insensitive. -/
theorem getPairKey_comm (a b : String) : getPairKey a b = getPairKey b a := by
  unfold getPairKey strLt
  by_cases h1 : strLtB a.data b.data = true
  · rw [if_pos h1, if_neg (by rw [strLtB_asymm h1]; exact Bool.false_ne_true)]
  · by_cases h2 : strLtB b.data a.data = true
    · rw [if_neg h1, if_pos h2]
    · have hab : a = b := String.ext
        (strLtB_eq_of_not a.data b.data (Bool.not_eq_true _ ▸ h1)
          (Bool.not_eq_true _ ▸ h2))
      rw [hab]

/-- If no element of `ps` carries key `k`, candidate `e`'s pair list holds
no pair with key `k`. -/
theorem candidatePairsFor_countP_zero (e : String) (k : String)
    (ps : List PairSimilarity) (h : ∀ q ∈ ps, pairKeyOf q ≠ k) :
    (candidatePairsFor e ps).countP (fun q => decide (pairKeyOf q = k)) = 0 := by
  induction ps with
  | nil => rfl
  | cons q rest ih =>
    have hq : pairKeyOf q ≠ k := h q (List.mem_cons_self q rest)
    have hrest := ih (fun q' hq' => h q' (List.mem_cons_of_mem q hq'))
    simp only [candidatePairsFor, List.countP_append, hrest, Nat.add_zero]
    split_ifs <;> simp [List.countP_cons, hq]

/-- The number of occurrences of pair `p`'s key in candidate `e`'s pair
list: one per endpoint whose email is `e`, provided pair keys are unique
in `ps`. -/
theorem candidatePairsFor_countP (e : String) (ps : List PairSimilarity)
    (p : PairSimilarity) (hmem : p ∈ ps) (hnodup : (ps.map pairKeyOf).Nodup) :
    (candidatePairsFor e ps).countP (fun q => decide (pairKeyOf q = pairKeyOf p))
      = (if p.artifactA.email = e then 1 else 0)
        + (if p.artifactB.email = e then 1 else 0) := by
  induction ps with
  | nil => cases hmem
  | cons q rest ih =>
    rw [List.map_cons, List.nodup_cons] at hnodup
    rcases List.mem_cons.mp hmem with rfl | hmem'
    · have hzero : (candidatePairsFor e rest).countP
          (fun q => decide (pairKeyOf q = pairKeyOf p)) = 0 :=
        candidatePairsFor_countP_zero e (pairKeyOf p) rest
          (fun q' hq' hkey => hnodup.1 (hkey ▸ List.mem_map_of_mem pairKeyOf hq'))
      simp only [candidatePairsFor, List.countP_append, hzero, Nat.add_zero]
      split_ifs <;> simp [List.countP_cons]
    · have hkq : pairKeyOf q ≠ pairKeyOf p :=
        fun hkey => hnodup.1 (hkey ▸ List.mem_map_of_mem pairKeyOf hmem')
      have := ih hmem' hnodup.2
      simp only [candidatePairsFor, List.countP_append, this]
      split_ifs <;> simp [List.countP_cons, hkq]

/-- C9 (amended): `getPairKey(a,b) = getPairKey(b,a)`; and in the
aggregator's per-candidate reduction a significant pair whose two
artifacts carry distinct emails contributes at most once to a given
candidate's pair list (hence to `codeSimilarity`/`algoSimilarity`) — but a
pair whose two artifacts carry the same email is appended twice for that
candidate (see the counterexample). -/
theorem pairKey_symm_and_no_double_count :
    (∀ a b, getPairKey a b = getPairKey b a)
    ∧ ∀ e (ps : List PairSimilarity) (p : PairSimilarity), p ∈ ps →
        (ps.map pairKeyOf).Nodup → p.artifactA.email ≠ p.artifactB.email →
        (candidatePairsFor e ps).countP (fun q => decide (pairKeyOf q = pairKeyOf p)) ≤ 1 := by
  refine ⟨getPairKey_comm, fun e ps p hmem hnodup hne => ?_⟩
  rw [candidatePairsFor_countP e ps p hmem hnodup]
  split_ifs with hA hB hB
  · exact absurd (hA.trans hB.symm) hne
  · omega
  · omega
  · omega

/-- C9 witness: a single significant pair between emails `e` and `f`
occurs exactly once in `e`'s pair list. -/
theorem pairKey_symm_and_no_double_count_witness :
    getPairKey "a1" "a2" = getPairKey "a2" "a1"
    ∧ (candidatePairsFor "e"
          [⟨tokArtifact "e" "a1" [], tokArtifact "f" "a2" [], 9/10, "1", "easy"⟩]).countP
        (fun q => decide (pairKeyOf q
          = pairKeyOf ⟨tokArtifact "e" "a1" [], tokArtifact "f" "a2" [], 9/10, "1", "easy"⟩))
        ≤ 1 := by
  refine ⟨pairKey_symm_and_no_double_count.1 "a1" "a2", ?_⟩
  refine pairKey_symm_and_no_double_count.2 "e" _ _ (List.mem_singleton.mpr rfl) ?_ ?_
  · simp
  · simp [tokArtifact]

/-- C9 counterexample: a significant pair whose two artifacts both carry
email `e` (two attempts of the same candidate) is appended twice to `e`'s
pair list, so that single pair is counted twice in `e`'s
`codeSimilarity`. -/
theorem same_email_pair_counted_twice :
    (candidatePairsFor "e"
          [⟨tokArtifact "e" "a1" [], tokArtifact "e" "a2" [], 9/10, "1", "easy"⟩]).countP
        (fun q => decide (pairKeyOf q
          = pairKeyOf ⟨tokArtifact "e" "a1" [], tokArtifact "e" "a2" [], 9/10, "1", "easy"⟩))
        = 2
    ∧ candidateCodeSimilarity "e"
        [⟨tokArtifact "e" "a1" [], tokArtifact "e" "a2" [], 9/10, "1", "easy"⟩] = 2
    ∧ (2 : ℕ) ≠ 1 := by
  refine ⟨by decide, ?_, by decide⟩
  norm_num [candidateCodeSimilarity, candidatePairsFor, tokArtifact]

/-! ## Greedy-string-tiling facts -/

/-- A fold whose step fixes the state leaves it unchanged. -/
theorem foldl_fixed {α σ : Type} (f : σ → α → σ) (s : σ) (l : List α)
    (h : ∀ a ∈ l, f s a = s) : l.foldl f s = s := by
  induction l with
  | nil => rfl
  | cons a l ih =>
    rw [List.foldl_cons, h a (List.mem_cons_self a l)]
    exact ih (fun a' ha' => h a' (List.mem_cons_of_mem a ha'))

/-- Every position inside a reported match is in range and unmarked. -/
theorem matchLenFuel_spec (tokensA tokensB : List String) (mA mB : Finset ℕ) :
    ∀ (fuel i j k : ℕ), k < matchLenFuel tokensA tokensB mA mB fuel i j →
      i + k < tokensA.length ∧ j + k < tokensB.length ∧ (i + k) ∉ mA ∧ (j + k) ∉ mB := by
  intro fuel
  induction fuel with
  | zero => intro i j k hk; simp [matchLenFuel] at hk
  | succ fuel ih =>
    intro i j k hk
    rw [matchLenFuel] at hk
    by_cases hb : i < tokensA.length ∧ j < tokensB.length
    · rw [dif_pos hb] at hk
      by_cases hm : i ∈ mA ∨ j ∈ mB
      · rw [if_pos hm] at hk; omega
      · rw [if_neg hm] at hk
        by_cases ht : tokensA.get ⟨i, hb.1⟩ ≠ tokensB.get ⟨j, hb.2⟩
        · rw [if_pos ht] at hk; omega
        · rw [if_neg ht] at hk
          cases k with
          | zero =>
            push_neg at hm
            exact ⟨by omega, by omega, by simpa using hm.1, by simpa using hm.2⟩
          | succ k =>
            have := ih (i + 1) (j + 1) k (by omega)
            refine ⟨by omega, by omega, ?_, ?_⟩
            · have : i + 1 + k ∉ mA := this.2.2.1
              simpa [Nat.add_right_comm i 1 k] using this
            · have : j + 1 + k ∉ mB := this.2.2.2
              simpa [Nat.add_right_comm j 1 k] using this
    · rw [dif_neg hb] at hk; omega

/-- A match never extends past the end of either token list. -/
theorem matchLenFuel_le (tokensA tokensB : List String) (mA mB : Finset ℕ)
    (fuel i j : ℕ) :
    matchLenFuel tokensA tokensB mA mB fuel i j ≤ tokensA.length - i
      ∧ matchLenFuel tokensA tokensB mA mB fuel i j ≤ tokensB.length - j := by
  rcases Nat.eq_zero_or_pos (matchLenFuel tokensA tokensB mA mB fuel i j) with h0 | hpos
  · omega
  · have := matchLenFuel_spec tokensA tokensB mA mB fuel i j
      (matchLenFuel tokensA tokensB mA mB fuel i j - 1) (by omega)
    omega

/-- A fold whose step preserves an invariant preserves it overall. -/
theorem foldl_inv {α σ : Type} (P : σ → Prop) (f : σ → α → σ)
    (h : ∀ s a, P s → P (f s a)) : ∀ (l : List α) (s : σ), P s → P (l.foldl f s) := by
  intro l
  induction l with
  | nil => intro s hs; exact hs
  | cons a l ih => intro s hs; exact ih (f s a) (h s a hs)

/-- The scan state is either untouched or records an actual match length
at its recorded start positions. -/
theorem bestMatch_spec (tokensA tokensB : List String) (mA mB : Finset ℕ)
    (minLength : ℕ) :
    (bestMatch tokensA tokensB mA mB minLength).1 ≠ 0 →
      (bestMatch tokensA tokensB mA mB minLength).1
        = matchLen tokensA tokensB mA mB
            (bestMatch tokensA tokensB mA mB minLength).2.1
            (bestMatch tokensA tokensB mA mB minLength).2.2 := by
  unfold bestMatch
  refine foldl_inv
    (fun st => st.1 ≠ 0 → st.1 = matchLen tokensA tokensB mA mB st.2.1 st.2.2)
    _ ?_ (List.range tokensA.length) (0, 0, 0) (by simp)
  intro st i hst
  by_cases hmem : i ∈ mA
  · rw [if_pos hmem]; exact hst
  · rw [if_neg hmem]
    unfold innerScan
    refine foldl_inv
      (fun st => st.1 ≠ 0 → st.1 = matchLen tokensA tokensB mA mB st.2.1 st.2.2)
      _ ?_ (List.range tokensB.length) st hst
    intro st' j hst'
    by_cases hmem' : j ∈ mB
    · rw [if_pos hmem']; exact hst'
    · rw [if_neg hmem']
      unfold tryMatch
      split_ifs with hcond
      · intro _; rfl
      · exact hst'

/-- The tiling loop never marks more tokens than either list holds. -/
theorem gstLoop_le (tokensA tokensB : List String) (minLength : ℕ) :
    ∀ (fuel : ℕ) (mA mB : Finset ℕ) (total : ℕ),
      mA ⊆ Finset.range tokensA.length → mB ⊆ Finset.range tokensB.length →
      total ≤ mA.card → total ≤ mB.card →
      gstLoop tokensA tokensB minLength fuel mA mB total ≤ tokensA.length
        ∧ gstLoop tokensA tokensB minLength fuel mA mB total ≤ tokensB.length := by
  intro fuel
  induction fuel with
  | zero =>
    intro mA mB total hA hB htA htB
    constructor
    · calc total ≤ mA.card := htA
        _ ≤ (Finset.range tokensA.length).card := Finset.card_le_card hA
        _ = tokensA.length := Finset.card_range _
    · calc total ≤ mB.card := htB
        _ ≤ (Finset.range tokensB.length).card := Finset.card_le_card hB
        _ = tokensB.length := Finset.card_range _
  | succ fuel ih =>
    intro mA mB total hA hB htA htB
    rw [gstLoop]
    by_cases hz : (bestMatch tokensA tokensB mA mB minLength).1 = 0
    · rw [if_pos hz]
      constructor
      · calc total ≤ mA.card := htA
          _ ≤ (Finset.range tokensA.length).card := Finset.card_le_card hA
          _ = tokensA.length := Finset.card_range _
      · calc total ≤ mB.card := htB
          _ ≤ (Finset.range tokensB.length).card := Finset.card_le_card hB
          _ = tokensB.length := Finset.card_range _
    · rw [if_neg hz]
      have hspec := bestMatch_spec tokensA tokensB mA mB minLength hz
      rw [matchLen] at hspec
      set best := bestMatch tokensA tokensB mA mB minLength with hbest
      have hfresh := matchLenFuel_spec tokensA tokensB mA mB tokensA.length
        best.2.1 best.2.2
      rw [← hspec] at hfresh
      have himA : ∀ x ∈ (Finset.range best.1).image (· + best.2.1), x ∉ mA ∧
          x < tokensA.length := by
        intro x hx
        obtain ⟨k, hk, rfl⟩ := Finset.mem_image.mp hx
        rw [Finset.mem_range] at hk
        have := hfresh k hk
        constructor
        · simpa [Nat.add_comm] using this.2.2.1
        · omega
      have himB : ∀ x ∈ (Finset.range best.1).image (· + best.2.2), x ∉ mB ∧
          x < tokensB.length := by
        intro x hx
        obtain ⟨k, hk, rfl⟩ := Finset.mem_image.mp hx
        rw [Finset.mem_range] at hk
        have := hfresh k hk
        constructor
        · simpa [Nat.add_comm] using this.2.2.2
        · omega
      have hdisjA : Disjoint mA ((Finset.range best.1).image (· + best.2.1)) := by
        rw [Finset.disjoint_right]
        intro x hx
        exact (himA x hx).1
      have hdisjB : Disjoint mB ((Finset.range best.1).image (· + best.2.2)) := by
        rw [Finset.disjoint_right]
        intro x hx
        exact (himB x hx).1
      have hcardA : (markRange mA best.2.1 best.1).card = mA.card + best.1 := by
        unfold markRange
        rw [Finset.card_union_of_disjoint hdisjA,
          Finset.card_image_of_injective _ (add_left_injective best.2.1),
          Finset.card_range]
      have hcardB : (markRange mB best.2.2 best.1).card = mB.card + best.1 := by
        unfold markRange
        rw [Finset.card_union_of_disjoint hdisjB,
          Finset.card_image_of_injective _ (add_left_injective best.2.2),
          Finset.card_range]
      refine ih (markRange mA best.2.1 best.1) (markRange mB best.2.2 best.1)
        (total + best.1) ?_ ?_ ?_ ?_
      · unfold markRange
        rw [Finset.union_subset_iff]
        refine ⟨hA, fun x hx => Finset.mem_range.mpr (himA x hx).2⟩
      · unfold markRange
        rw [Finset.union_subset_iff]
        refine ⟨hB, fun x hx => Finset.mem_range.mpr (himB x hx).2⟩
      · omega
      · omega

/-- `greedyStringTiling` reports at most `min(|A|, |B|)` matched tokens. -/
theorem greedyStringTiling_le (tokensA tokensB : List String) (minLength : ℕ) :
    greedyStringTiling tokensA tokensB minLength ≤ tokensA.length
      ∧ greedyStringTiling tokensA tokensB minLength ≤ tokensB.length :=
  gstLoop_le tokensA tokensB minLength (tokensA.length + 1) ∅ ∅ 0
    (Finset.empty_subset _) (Finset.empty_subset _) (Nat.le_refl 0) (Nat.le_refl 0)

/-! ## C6 — kernel bounds and empty inputs -/

/-- The fingerprint kernel stays in `[0, 1]`. -/
theorem FingerprintSimilarity_bounds (a b : Artifact) :
    0 ≤ FingerprintSimilarity a b ∧ FingerprintSimilarity a b ≤ 1 := by
  unfold FingerprintSimilarity
  rcases hfa : a.fingerprints with _ | fA <;> rcases hfb : b.fingerprints with _ | fB <;>
    dsimp only [] <;> try norm_num
  split_ifs with h0
  · norm_num
  · push_neg at h0
    have hA : 0 < (hashSet fA).card :=
      Finset.card_pos.mpr (Finset.nonempty_iff_ne_empty.mpr h0.1)
    have hB : 0 < (hashSet fB).card :=
      Finset.card_pos.mpr (Finset.nonempty_iff_ne_empty.mpr h0.2)
    have hmin : (0 : ℚ) < ((hashSet fA).card : ℚ) ⊓ ((hashSet fB).card : ℚ) :=
      lt_min (by exact_mod_cast hA) (by exact_mod_cast hB)
    constructor
    · positivity
    · rw [div_le_one hmin]
      refine le_min ?_ ?_
      · exact_mod_cast Finset.card_le_card Finset.inter_subset_left
      · exact_mod_cast Finset.card_le_card Finset.inter_subset_right

/-- The token kernel stays in `[0, 1]`. -/
theorem TokenSimilarity_bounds (a b : Artifact) :
    0 ≤ TokenSimilarity a b ∧ TokenSimilarity a b ≤ 1 := by
  unfold TokenSimilarity
  dsimp only []
  split_ifs with h1 h2
  · norm_num
  · norm_num
  · push_neg at h1
    have hg := greedyStringTiling_le a.normalizedTokens b.normalizedTokens 5
    have hlen : (0 : ℚ) <
        ((a.normalizedTokens.length + b.normalizedTokens.length : ℕ) : ℚ) := by
      have : 0 < a.normalizedTokens.length + b.normalizedTokens.length := by omega
      exact_mod_cast this
    constructor
    · positivity
    · rw [div_le_one hlen]
      have c1 : ((greedyStringTiling a.normalizedTokens b.normalizedTokens 5 : ℕ) : ℚ)
          ≤ (a.normalizedTokens.length : ℚ) := by exact_mod_cast hg.1
      have c2 : ((greedyStringTiling a.normalizedTokens b.normalizedTokens 5 : ℕ) : ℚ)
          ≤ (b.normalizedTokens.length : ℚ) := by exact_mod_cast hg.2
      push_cast
      linarith

/-- The AST kernel stays in `[0, 1]` for every hash function. -/
theorem ASTSimilarity_bounds (h : String → String) (a b : Artifact) :
    0 ≤ ASTSimilarity h a b ∧ ASTSimilarity h a b ≤ 1 := by
  unfold ASTSimilarity
  rcases hta : a.ast with _ | tA <;> rcases htb : b.ast with _ | tB <;>
    dsimp only [] <;> try norm_num
  split_ifs with h0
  · norm_num
  · push_neg at h0
    have hA : 0 < (subtreeHashes h tA).card :=
      Finset.card_pos.mpr (Finset.nonempty_iff_ne_empty.mpr h0.1)
    have hB : 0 < (subtreeHashes h tB).card :=
      Finset.card_pos.mpr (Finset.nonempty_iff_ne_empty.mpr h0.2)
    have hmin : (0 : ℚ) < ((subtreeHashes h tA).card : ℚ) ⊓ ((subtreeHashes h tB).card : ℚ) :=
      lt_min (by exact_mod_cast hA) (by exact_mod_cast hB)
    constructor
    · positivity
    · rw [div_le_one hmin]
      refine le_min ?_ ?_
      · exact_mod_cast Finset.card_le_card Finset.inter_subset_left
      · exact_mod_cast Finset.card_le_card Finset.inter_subset_right

/-- The CFG kernel stays in `[0, 1]`: the clamp guarantees it without any
fact about the feature extraction. -/
theorem CFGSimilarity_bounds (a b : Artifact) :
    0 ≤ CFGSimilarity a b ∧ CFGSimilarity a b ≤ 1 := by
  unfold CFGSimilarity
  rcases hga : a.cfg with _ | gA <;> rcases hgb : b.cfg with _ | gB <;>
    dsimp only [] <;> try norm_num
  split_ifs <;> constructor <;> linarith

/-- C6 (amended): every kernel score lies in `[0, 1]`; with both sides
missing or empty the fingerprint, token and AST kernels return `0`, and
the CFG kernel returns `0` when both CFGs are nil — but NOT when both
CFGs are present and empty (then its feature vectors are `[0,0,0,0,0,2]`
and the score is `1`; see the counterexample). -/
theorem kernel_bounds_and_empty (h : String → String) (a b : Artifact) :
    (0 ≤ FingerprintSimilarity a b ∧ FingerprintSimilarity a b ≤ 1)
    ∧ (0 ≤ TokenSimilarity a b ∧ TokenSimilarity a b ≤ 1)
    ∧ (0 ≤ ASTSimilarity h a b ∧ ASTSimilarity h a b ≤ 1)
    ∧ (0 ≤ CFGSimilarity a b ∧ CFGSimilarity a b ≤ 1)
    ∧ ((a.fingerprints = none ∨ ∃ f, a.fingerprints = some f ∧ hashSet f = ∅) →
        (b.fingerprints = none ∨ ∃ f, b.fingerprints = some f ∧ hashSet f = ∅) →
        FingerprintSimilarity a b = 0)
    ∧ (a.normalizedTokens = [] → b.normalizedTokens = [] → TokenSimilarity a b = 0)
    ∧ (a.ast = none → b.ast = none → ASTSimilarity h a b = 0)
    ∧ (a.cfg = none → b.cfg = none → CFGSimilarity a b = 0) := by
  refine ⟨FingerprintSimilarity_bounds a b, TokenSimilarity_bounds a b,
    ASTSimilarity_bounds h a b, CFGSimilarity_bounds a b, ?_, ?_, ?_, ?_⟩
  · intro ha _
    rcases ha with ha | ⟨f, ha, hfe⟩
    · simp [FingerprintSimilarity, ha]
    · rcases hfb : b.fingerprints with _ | fB
      · simp [FingerprintSimilarity, ha, hfb]
      · simp [FingerprintSimilarity, ha, hfb, hfe]
  · intro ha hb
    simp [TokenSimilarity, ha, hb]
  · intro ha hb
    simp [ASTSimilarity, ha, hb]
  · intro ha hb
    simp [CFGSimilarity, ha, hb]

/-- C6 witness: for two artifacts with no fingerprints, no tokens, no AST
and no CFG, all four kernels return `0` (and `0 ∈ [0, 1]`). -/
theorem kernel_bounds_and_empty_witness :
    FingerprintSimilarity (tokArtifact "e1" "a" []) (tokArtifact "e2" "b" []) = 0
    ∧ TokenSimilarity (tokArtifact "e1" "a" []) (tokArtifact "e2" "b" []) = 0
    ∧ ASTSimilarity id (tokArtifact "e1" "a" []) (tokArtifact "e2" "b" []) = 0
    ∧ CFGSimilarity (tokArtifact "e1" "a" []) (tokArtifact "e2" "b" []) = 0
    ∧ 0 ≤ FingerprintSimilarity (tokArtifact "e1" "a" []) (tokArtifact "e2" "b" []) := by
  have h := kernel_bounds_and_empty id (tokArtifact "e1" "a" []) (tokArtifact "e2" "b" [])
  exact ⟨h.2.2.2.2.1 (Or.inl rfl) (Or.inl rfl), h.2.2.2.2.2.1 rfl rfl,
    h.2.2.2.2.2.2.1 rfl rfl, h.2.2.2.2.2.2.2 rfl rfl, h.1.1⟩

/-- The artifact of the C6 counterexample: a present-but-empty CFG. -/
def emptyCFGArtifact : Artifact :=
  ⟨"e", "a", "", "", "", 0, "", "", [], [], none, some ⟨[], []⟩, none⟩

/-- C6 counterexample: with both CFGs present but EMPTY, the cyclomatic
feature is `0 − 0 + 2 = 2`, the two feature vectors are equal and
non-zero, and `CFGSimilarity` returns `1.0`, not the claimed `0.0`. -/
theorem cfg_empty_scores_one :
    CFGSimilarity emptyCFGArtifact emptyCFGArtifact = 1 ∧ (1 : ℝ) ≠ 0 := by
  constructor
  · have hfeat : extractCFGFeatures ⟨[], []⟩ = ⟨0, 0, 0, 0, 0, 2⟩ := by
      norm_num [extractCFGFeatures, detectLoops, calculateMaxDepth, cfgAdj]
    norm_num [CFGSimilarity, emptyCFGArtifact, hfeat, sqDist, sqNorm]
  · norm_num

/-! ## C7 — reflexivity of the kernels -/

/-- Matching a fresh list against itself from aligned position `i` runs to
the end of the list. -/
theorem matchLenFuel_self (xs : List String) :
    ∀ (fuel i : ℕ), xs.length - i ≤ fuel →
      matchLenFuel xs xs ∅ ∅ fuel i i = xs.length - i := by
  intro fuel
  induction fuel with
  | zero => intro i h; simp only [matchLenFuel]; omega
  | succ fuel ih =>
    intro i h
    simp only [matchLenFuel]
    by_cases hi : i < xs.length
    · rw [dif_pos ⟨hi, hi⟩, if_neg (by simp), if_neg (by simp), ih (i + 1) (by omega)]
      omega
    · rw [dif_neg (by omega)]
      omega

/-- `tryMatch` never adopts a candidate no longer than the current best. -/
theorem tryMatch_noupdate (minLength : ℕ) (st : ℕ × ℕ × ℕ) (ml i j : ℕ)
    (h : ml ≤ st.1) : tryMatch minLength st ml i j = st := by
  unfold tryMatch
  rw [if_neg]
  rintro ⟨-, hlt⟩
  omega

/-- A state already holding a full-length match survives `innerScan`. -/
theorem innerScan_fixed (xs : List String) (i : ℕ) (st : ℕ × ℕ × ℕ)
    (hst : st.1 = xs.length) : innerScan xs xs ∅ ∅ 5 i st = st := by
  unfold innerScan
  refine foldl_fixed _ st _ (fun j _ => ?_)
  rw [if_neg (Finset.not_mem_empty j)]
  refine tryMatch_noupdate 5 st _ i j ?_
  rw [hst]
  have := (matchLenFuel_le xs xs ∅ ∅ xs.length i j).1
  unfold matchLen
  omega

/-- On a fresh self-comparison of a list of length at least `5`, the scan
finds the whole list as its maximal match, anchored at `(0, 0)`. -/
theorem bestMatch_self (xs : List String) (h5 : 5 ≤ xs.length) :
    bestMatch xs xs ∅ ∅ 5 = (xs.length, 0, 0) := by
  obtain ⟨m, hm⟩ : ∃ m, xs.length = m + 1 := ⟨xs.length - 1, by omega⟩
  unfold bestMatch
  rw [hm, List.range_succ_eq_map, List.foldl_cons, if_neg (Finset.not_mem_empty 0)]
  have hinner : innerScan xs xs ∅ ∅ 5 0 (0, 0, 0) = (xs.length, 0, 0) := by
    unfold innerScan
    conv_lhs => rw [hm, List.range_succ_eq_map]
    rw [List.foldl_cons, if_neg (Finset.not_mem_empty 0)]
    have hfull : matchLen xs xs ∅ ∅ 0 0 = xs.length := by
      unfold matchLen
      simpa using matchLenFuel_self xs xs.length 0 (by omega)
    rw [hfull]
    have hadopt : tryMatch 5 (0, 0, 0) xs.length 0 0 = (xs.length, 0, 0) := by
      unfold tryMatch
      rw [if_pos ⟨h5, by omega⟩]
    rw [hadopt]
    refine foldl_fixed _ _ _ (fun j _ => ?_)
    rw [if_neg (Finset.not_mem_empty j)]
    refine tryMatch_noupdate 5 _ _ 0 j ?_
    have := (matchLenFuel_le xs xs ∅ ∅ xs.length 0 j).1
    unfold matchLen
    omega
  rw [hinner, ← hm]
  exact foldl_fixed _ _ _ (fun i _ => by
    rw [if_neg (Finset.not_mem_empty i)]
    exact innerScan_fixed xs i _ rfl)

/-- After everything is marked, the scan finds nothing. -/
theorem bestMatch_all_marked (xs : List String) (mB : Finset ℕ) :
    bestMatch xs xs (Finset.range xs.length) mB 5 = (0, 0, 0) := by
  unfold bestMatch
  refine foldl_fixed _ _ _ (fun i hi => ?_)
  rw [if_pos (Finset.mem_range.mpr (List.mem_range.mp hi))]

/-- Greedy string tiling of a list of length at least `5` against itself
matches every token. -/
theorem greedyStringTiling_self (xs : List String) (h5 : 5 ≤ xs.length) :
    greedyStringTiling xs xs 5 = xs.length := by
  unfold greedyStringTiling
  rw [gstLoop, bestMatch_self xs h5]
  rw [if_neg (by omega : ¬(xs.length, 0, 0).1 = 0)]
  have hmark : markRange ∅ 0 xs.length = Finset.range xs.length := by
    unfold markRange
    simp
  obtain ⟨m, hm⟩ : ∃ m, xs.length = m + 1 := ⟨xs.length - 1, by omega⟩
  simp only [hmark]
  conv_lhs => rw [hm]
  rw [gstLoop, ← hm, bestMatch_all_marked]
  simp

/-- The fingerprint kernel is reflexive on a non-empty hash set. -/
theorem FingerprintSimilarity_refl (a : Artifact) (f : Fingerprints)
    (hf : a.fingerprints = some f) (hne : hashSet f ≠ ∅) :
    FingerprintSimilarity a a = 1 := by
  unfold FingerprintSimilarity
  rw [hf]
  dsimp only []
  have hc : (hashSet f).card ≠ 0 := fun hzero => hne (Finset.card_eq_zero.mp hzero)
  rw [if_neg (by simp [hc]), Finset.inter_self, min_self]
  exact div_self (by exact_mod_cast hc)

/-- The token kernel is reflexive once the list reaches `minLength = 5`. -/
theorem TokenSimilarity_refl (a : Artifact) (h5 : 5 ≤ a.normalizedTokens.length) :
    TokenSimilarity a a = 1 := by
  unfold TokenSimilarity
  dsimp only []
  rw [if_neg (by omega), greedyStringTiling_self a.normalizedTokens h5,
    if_neg (by omega)]
  rw [div_eq_one_iff_eq (Nat.cast_ne_zero.mpr (by omega))]
  push_cast
  ring

/-- Every subtree-hash set contains the root's entry. -/
theorem subtreeHashes_card_pos (h : String → String) (t : ASTNode) :
    0 < (subtreeHashes h t).card := by
  rcases t with ⟨ty, nm, rt, cs⟩
  rw [subtreeHashes]
  refine Finset.card_pos.mpr ⟨h (ty ++ String.join (sortStrings (computeNodeHashList h cs))), ?_⟩
  simp

/-- The AST kernel is reflexive on any present AST. -/
theorem ASTSimilarity_refl (h : String → String) (a : Artifact) (t : ASTNode)
    (ht : a.ast = some t) : ASTSimilarity h a a = 1 := by
  unfold ASTSimilarity
  rw [ht]
  dsimp only []
  have hc : (subtreeHashes h t).card ≠ 0 := (subtreeHashes_card_pos h t).ne'
  rw [if_neg (by simp [hc]), Finset.inter_self, min_self]
  exact div_self (by exact_mod_cast hc)

/-- A non-zero feature vector has positive squared norm. -/
theorem sqNorm_pos (v : CFGFeatures) (hv : v ≠ ⟨0, 0, 0, 0, 0, 0⟩) : 0 < sqNorm v := by
  rcases v with ⟨a1, a2, a3, a4, a5, a6⟩
  unfold sqNorm
  dsimp only []
  by_contra hle
  push_neg at hle
  have e1 : a1 = 0 := by
    have := sq_nonneg a1; have := sq_nonneg a2; have := sq_nonneg a3
    have := sq_nonneg a4; have := sq_nonneg a5; have := sq_nonneg a6
    nlinarith
  have e2 : a2 = 0 := by
    have := sq_nonneg a1; have := sq_nonneg a2; have := sq_nonneg a3
    have := sq_nonneg a4; have := sq_nonneg a5; have := sq_nonneg a6
    nlinarith
  have e3 : a3 = 0 := by
    have := sq_nonneg a1; have := sq_nonneg a2; have := sq_nonneg a3
    have := sq_nonneg a4; have := sq_nonneg a5; have := sq_nonneg a6
    nlinarith
  have e4 : a4 = 0 := by
    have := sq_nonneg a1; have := sq_nonneg a2; have := sq_nonneg a3
    have := sq_nonneg a4; have := sq_nonneg a5; have := sq_nonneg a6
    nlinarith
  have e5 : a5 = 0 := by
    have := sq_nonneg a1; have := sq_nonneg a2; have := sq_nonneg a3
    have := sq_nonneg a4; have := sq_nonneg a5; have := sq_nonneg a6
    nlinarith
  have e6 : a6 = 0 := by
    have := sq_nonneg a1; have := sq_nonneg a2; have := sq_nonneg a3
    have := sq_nonneg a4; have := sq_nonneg a5; have := sq_nonneg a6
    nlinarith
  subst e1; subst e2; subst e3; subst e4; subst e5; subst e6
  exact hv rfl

/-- The CFG kernel is reflexive when the feature vector is non-zero. -/
theorem CFGSimilarity_refl (a : Artifact) (g : CFG) (hg : a.cfg = some g)
    (hnz : extractCFGFeatures g ≠ ⟨0, 0, 0, 0, 0, 0⟩) : CFGSimilarity a a = 1 := by
  unfold CFGSimilarity
  rw [hg]
  dsimp only []
  have hd : sqDist (extractCFGFeatures g) (extractCFGFeatures g) = 0 := by
    unfold sqDist; ring
  have hq : (0 : ℝ) < (sqNorm (extractCFGFeatures g) : ℝ) := by
    exact_mod_cast sqNorm_pos _ hnz
  have hs : 0 < Real.sqrt (sqNorm (extractCFGFeatures g) : ℝ) := Real.sqrt_pos.mpr hq
  rw [hd]
  rw [if_neg (by positivity)]
  norm_num

/-- C7 (amended): `FingerprintSimilarity(A,A) = 1` for a non-empty hash
set, `TokenSimilarity(A,A) = 1` whenever the normalized token list has at
least `minLength = 5` entries (shorter non-empty lists admit no tile and
score `0`; see the counterexample), `ASTSimilarity(A,A) = 1` for any
present AST, and `CFGSimilarity(A,A) = 1` whenever the 6-element feature
vector is non-zero. -/
theorem kernel_reflexivity (h : String → String) (a : Artifact) :
    (∀ f, a.fingerprints = some f → hashSet f ≠ ∅ → FingerprintSimilarity a a = 1)
    ∧ (5 ≤ a.normalizedTokens.length → TokenSimilarity a a = 1)
    ∧ (∀ t, a.ast = some t → ASTSimilarity h a a = 1)
    ∧ (∀ g, a.cfg = some g → extractCFGFeatures g ≠ ⟨0, 0, 0, 0, 0, 0⟩ →
        CFGSimilarity a a = 1) :=
  ⟨fun f hf hne => FingerprintSimilarity_refl a f hf hne,
   fun h5 => TokenSimilarity_refl a h5,
   fun t ht => ASTSimilarity_refl h a t ht,
   fun g hg hnz => CFGSimilarity_refl a g hg hnz⟩

/-- The fully-populated artifact used by the C7 witness. -/
def reflexiveArtifact : Artifact :=
  ⟨"e", "a", "", "", "", 0, "", "", [], ["t1", "t2", "t3", "t4", "t5"],
    some (.mk "root" "" "" []), some ⟨[⟨"n1", "ENTRY", "", 0⟩], []⟩,
    some ⟨"winnow", 5, 4, [⟨"h1", 0⟩]⟩⟩

/-- C7 witness: on an artifact with one fingerprint hash, five normalized
tokens, a one-node AST and a one-node CFG, all four kernels score `1`
against itself. -/
theorem kernel_reflexivity_witness :
    FingerprintSimilarity reflexiveArtifact reflexiveArtifact = 1
    ∧ TokenSimilarity reflexiveArtifact reflexiveArtifact = 1
    ∧ ASTSimilarity id reflexiveArtifact reflexiveArtifact = 1
    ∧ CFGSimilarity reflexiveArtifact reflexiveArtifact = 1 := by
  have h := kernel_reflexivity id reflexiveArtifact
  refine ⟨h.1 ⟨"winnow", 5, 4, [⟨"h1", 0⟩]⟩ rfl (by decide), h.2.1 (by decide),
    h.2.2.1 (.mk "root" "" "" []) rfl, h.2.2.2 ⟨[⟨"n1", "ENTRY", "", 0⟩], []⟩ rfl ?_⟩
  norm_num [extractCFGFeatures, detectLoops, calculateMaxDepth, cfgAdj, dfsLoops, bfsDepth]

/-- C7 counterexample: a single-token artifact is non-empty, yet greedy
string tiling admits no tile of length at least `5`, so
`TokenSimilarity(A,A) = 0`, not `1`. -/
theorem token_reflexivity_fails_short :
    (tokArtifact "e" "a" ["x"]).normalizedTokens ≠ []
    ∧ TokenSimilarity (tokArtifact "e" "a" ["x"]) (tokArtifact "e" "a" ["x"]) = 0
    ∧ (0 : ℚ) ≠ 1 := by
  refine ⟨by simp [tokArtifact], ?_, by norm_num⟩
  have hg : greedyStringTiling ["x"] ["x"] 5 = 0 := by decide
  norm_num [TokenSimilarity, tokArtifact, hg]

/-! ## C8 — kernel symmetry -/

/-- The squared feature distance is symmetric. -/
theorem sqDist_comm (u v : CFGFeatures) : sqDist u v = sqDist v u := by
  unfold sqDist; ring

/-- C8 (amended): the fingerprint, AST and CFG kernels are symmetric in
their two artifacts; `TokenSimilarity` is NOT symmetric in general — the
greedy tiling's tie-breaking depends on the scan order, and swapping the
inputs can change which tiles are locked (see the counterexample). -/
theorem kernel_symmetry (h : String → String) (a b : Artifact) :
    FingerprintSimilarity a b = FingerprintSimilarity b a
    ∧ ASTSimilarity h a b = ASTSimilarity h b a
    ∧ CFGSimilarity a b = CFGSimilarity b a := by
  refine ⟨?_, ?_, ?_⟩
  · unfold FingerprintSimilarity
    rcases a.fingerprints with _ | fA <;> rcases b.fingerprints with _ | fB <;> dsimp only []
    by_cases hc : (hashSet fA).card = 0 ∨ (hashSet fB).card = 0
    · rw [if_pos hc, if_pos (Or.symm hc)]
    · rw [if_neg hc, if_neg (fun hcon => hc (Or.symm hcon)), Finset.inter_comm, min_comm]
  · unfold ASTSimilarity
    rcases a.ast with _ | tA <;> rcases b.ast with _ | tB <;> dsimp only []
    by_cases hc : (subtreeHashes h tA).card = 0 ∨ (subtreeHashes h tB).card = 0
    · rw [if_pos hc, if_pos (Or.symm hc)]
    · rw [if_neg hc, if_neg (fun hcon => hc (Or.symm hcon)), Finset.inter_comm, min_comm]
  · unfold CFGSimilarity
    rcases a.cfg with _ | gA <;> rcases b.cfg with _ | gB <;> dsimp only []
    rw [sqDist_comm, add_comm (Real.sqrt (sqNorm (extractCFGFeatures gA) : ℝ))
      (Real.sqrt (sqNorm (extractCFGFeatures gB) : ℝ))]

set_option maxRecDepth 40000 in
/-- C8 counterexample: on the 12-token lists `gstTokensA`/`gstTokensB`
the greedy tiling locks 6 tokens one way but all 12 the other way, so
`TokenSimilarity` is `0.5` in one orientation and `1` in the other. -/
theorem tokenSimilarity_asymmetric :
    TokenSimilarity (tokArtifact "e1" "x" gstTokensA) (tokArtifact "e2" "y" gstTokensB) = 1/2
    ∧ TokenSimilarity (tokArtifact "e2" "y" gstTokensB) (tokArtifact "e1" "x" gstTokensA) = 1
    ∧ (1/2 : ℚ) ≠ 1 := by
  have h1 : greedyStringTiling gstTokensA gstTokensB 5 = 6 := by decide
  have h2 : greedyStringTiling gstTokensB gstTokensA 5 = 12 := by decide
  refine ⟨?_, ?_, by norm_num⟩
  · norm_num [TokenSimilarity, tokArtifact, gstTokensA, gstTokensB] at h1 ⊢
    rw [h1]
    norm_num
  · norm_num [TokenSimilarity, tokArtifact, gstTokensA, gstTokensB] at h2 ⊢
    rw [h2]
    norm_num

/-! ## C3 — worthy-pair filter soundness and de-duplication -/

/-- The pair key of a candidate pair. -/
def pairKeyOfPair (p : Pair) : String :=
  getPairKey p.artifactA.attemptID p.artifactB.attemptID

/-- Invariant of the `pairMap`: every stored pair met the threshold, every
entry's key is its pair's key, and keys never repeat. -/
def WorthyInv (threshold : ℚ) (pm : List (String × Pair)) : Prop :=
  (∀ e ∈ pm, threshold ≤ calculateOverlap e.2.artifactA e.2.artifactB
    ∧ e.1 = pairKeyOfPair e.2)
  ∧ (pm.map Prod.fst).Nodup

/-- `insertIfAbsent` preserves the invariant for a pair that met the
threshold. -/
theorem insertIfAbsent_inv (threshold : ℚ) (pm : List (String × Pair)) (key : String)
    (pair : Pair) (hinv : WorthyInv threshold pm)
    (hov : threshold ≤ calculateOverlap pair.artifactA pair.artifactB)
    (hkey : key = pairKeyOfPair pair) :
    WorthyInv threshold (insertIfAbsent pm key pair) := by
  unfold insertIfAbsent
  split_ifs with hex
  · exact hinv
  · constructor
    · intro e he
      rcases List.mem_append.mp he with he | he
      · exact hinv.1 e he
      · rw [List.mem_singleton.mp he]
        exact ⟨hov, hkey⟩
    · rw [List.map_append]
      refine List.nodup_append.mpr ⟨hinv.2, List.nodup_singleton _, ?_⟩
      intro x hx hx'
      rw [List.map_singleton, List.mem_singleton] at hx'
      obtain ⟨e, he, hek⟩ := List.mem_map.mp hx
      exact hex (List.any_eq_true.mpr ⟨e, he, decide_eq_true (by rw [hek, hx'])⟩)

/-- The per-hash double loop preserves the invariant. -/
theorem addWorthyPairs_inv (threshold : ℚ) (hashArtifacts : List Artifact)
    (pm : List (String × Pair)) (hinv : WorthyInv threshold pm) :
    WorthyInv threshold (addWorthyPairs threshold hashArtifacts pm) := by
  unfold addWorthyPairs
  refine foldl_inv (WorthyInv threshold) _ ?_ _ pm hinv
  intro pm' ab hinv'
  split_ifs with hov
  · exact insertIfAbsent_inv threshold pm' _ _ hinv' hov rfl
  · exact hinv'

/-- The whole `pairMap` construction satisfies the invariant. -/
theorem worthyPairMap_inv (gii : GII) (artifacts : List Artifact) (difficulty : String) :
    WorthyInv (getWorthyThreshold difficulty) (worthyPairMap gii artifacts difficulty) := by
  unfold worthyPairMap
  refine foldl_inv (WorthyInv (getWorthyThreshold difficulty)) _ ?_ gii []
    ⟨by simp, by simp⟩
  intro pm entry hinv
  split_ifs with hlen
  · exact hinv
  · exact addWorthyPairs_inv _ _ pm hinv

/-- C3: over the index built by `BuildGII`, every pair emitted by
`GetWorthyPairs` has `overlap = shared/min(|A|,|B|)` at or above the
difficulty threshold (`easy 0.15, medium 0.10, hard 0.05`), no pair below
the threshold is ever emitted, and the emitted pair keys are pairwise
distinct, so each unordered pair appears at most once. -/
theorem worthyPairs_filter_sound (artifacts : List Artifact) (difficulty : String) :
    (∀ p ∈ GetWorthyPairs (BuildGII artifacts) artifacts difficulty,
        getWorthyThreshold difficulty ≤ calculateOverlap p.artifactA p.artifactB)
    ∧ ((GetWorthyPairs (BuildGII artifacts) artifacts difficulty).map pairKeyOfPair).Nodup := by
  have hinv := worthyPairMap_inv (BuildGII artifacts) artifacts difficulty
  constructor
  · intro p hp
    unfold GetWorthyPairs at hp
    obtain ⟨e, he, rfl⟩ := List.mem_map.mp hp
    exact (hinv.1 e he).1
  · unfold GetWorthyPairs
    rw [List.map_map]
    have hmaps : (worthyPairMap (BuildGII artifacts) artifacts difficulty).map
        (pairKeyOfPair ∘ Prod.snd)
        = (worthyPairMap (BuildGII artifacts) artifacts difficulty).map Prod.fst :=
      List.map_congr_left (fun e he => ((hinv.1 e he).2).symm)
    rw [hmaps]
    exact hinv.2

/-- First artifact of the C3 witness: a single hash `h1`. -/
def worthyArtifact1 : Artifact := fpArtifact "e1" "a1" ["h1"]

/-- Second artifact of the C3 witness: the same hash. -/
def worthyArtifact2 : Artifact := fpArtifact "e2" "a2" ["h1"]

set_option maxHeartbeats 2000000 in
/-- C3 witness: two artifacts sharing their only hash yield exactly the
pair `(a1, a2)`, its overlap meets the easy threshold, and the emitted
keys are duplicate-free. -/
theorem worthyPairs_filter_sound_witness :
    getWorthyThreshold "easy" ≤ calculateOverlap worthyArtifact1 worthyArtifact2
    ∧ ((GetWorthyPairs (BuildGII [worthyArtifact1, worthyArtifact2])
        [worthyArtifact1, worthyArtifact2] "easy").map pairKeyOfPair).Nodup := by
  have hout : GetWorthyPairs (BuildGII [worthyArtifact1, worthyArtifact2])
      [worthyArtifact1, worthyArtifact2] "easy" = [⟨worthyArtifact1, worthyArtifact2⟩] := by
    norm_num [GetWorthyPairs, worthyPairMap, BuildGII, giiAppend, addWorthyPairs,
      orderedPairs, insertIfAbsent, lookupArtifact, List.filterMap_cons, calculateOverlap,
      hashSet, getPairKey, strLt, strLtB, getWorthyThreshold, worthyArtifact1,
      worthyArtifact2, fpArtifact]
  refine ⟨?_, (worthyPairs_filter_sound [worthyArtifact1, worthyArtifact2] "easy").2⟩
  exact (worthyPairs_filter_sound [worthyArtifact1, worthyArtifact2] "easy").1
    ⟨worthyArtifact1, worthyArtifact2⟩ (by rw [hout]; exact List.mem_singleton.mpr rfl)

end Aegis
